import Mathlib

/-!
Shallow embedding of `src/xenstore-srv/src/xenstore_srv.c` (zephyr-xenlib
xenstore server).  Strings are modelled as `List Char`; the free-running
32-bit ring indices as `Nat` values reduced modulo `2^32` exactly where the
C performs `uint32_t` arithmetic.  Constants `XENSTORE_RING_SIZE = 1024` and
`XENSTORE_ABS_PATH_MAX = 3072` come from Xen's public header
`xen/public/io/xs_wire.h` which the source includes.
-/

def XENSTORE_RING_SIZE : Nat := 1024

def XENSTORE_ABS_PATH_MAX : Nat := 3072

/-- `XENSTORE_MAX_LOCALPATH_LEN` from the source (line 28). -/
def XENSTORE_MAX_LOCALPATH_LEN : Nat := 21

/-- `sizeof(struct xsd_sockmsg)`: four `uint32_t` fields. -/
def HEADER_SIZE : Nat := 16

/-- The worker's `input_buffer` is `char[XENSTORE_RING_SIZE]` (line 1153). -/
def INPUT_BUFFER_SIZE : Nat := XENSTORE_RING_SIZE

def U32_MOD : Nat := 4294967296

/-- 32-bit modular subtraction `a - b` as performed on `XENSTORE_RING_IDX`. -/
def u32_sub (a b : Nat) : Nat := (a % U32_MOD + U32_MOD - b % U32_MOD) % U32_MOD

/-- `MASK_XENSTORE_IDX(idx)` = `idx & (XENSTORE_RING_SIZE - 1)`. -/
def MASK_XENSTORE_IDX (idx : Nat) : Nat := idx % XENSTORE_RING_SIZE

/-- `check_indexes` (lines 240-243): true iff `prod - cons > XENSTORE_RING_SIZE`
in 32-bit arithmetic. -/
def check_indexes (cons prod : Nat) : Bool :=
  u32_sub prod cons > XENSTORE_RING_SIZE

/-- `get_input_offset` (lines 245-256): returns `(ring offset, contiguous len)`
for the request ring. -/
def get_input_offset (cons prod : Nat) : Nat × Nat :=
  let delta := u32_sub prod cons
  let l0 := XENSTORE_RING_SIZE - MASK_XENSTORE_IDX cons
  (MASK_XENSTORE_IDX cons, if delta < l0 then delta else l0)

/-- `get_output_offset` (lines 258-269).  The C computes
`size_t delta = XENSTORE_RING_SIZE - cons + prod;` in `uint32_t` arithmetic;
for `cons, prod < 2^32` that value is
`(XENSTORE_RING_SIZE + 2^32 - cons + prod) mod 2^32`. -/
def get_output_offset (cons prod : Nat) : Nat × Nat :=
  let delta := (XENSTORE_RING_SIZE + U32_MOD - cons % U32_MOD + prod % U32_MOD) % U32_MOD
  let l0 := XENSTORE_RING_SIZE - MASK_XENSTORE_IDX prod
  (MASK_XENSTORE_IDX prod, if delta < l0 then delta else l0)

/-- Length of the first `memcpy` performed by `write_xb` (lines 271-290):
`effect = blen > len ? len : blen`. -/
def write_xb_first_copy (cons prod len : Nat) : Nat :=
  let blen := (get_output_offset cons prod).2
  min blen len

/-- The loop body of `read_xb` (lines 292-315), structurally recursive on a
fuel argument.  Each iteration with a non-empty ring consumes at least one
byte, so `fuel := len` (see `read_xb`) is never exhausted before the C loop
would have exited; the `fuel = 0` base case is reached only for `len = 0`,
where the C `do`/`while` also returns `0` with `req_cons` unchanged
(either via the `blen == 0` early return or with `effect = 0`).
Returns `(value returned by read_xb, final req_cons)`; note the early return
discards the accumulated `offset`, exactly as the C does. -/
def read_xb_go (prod : Nat) : Nat → Nat → Nat → Nat → Nat × Nat
  | 0, cons, _, _ => (0, cons)
  | fuel + 1, cons, len, offset =>
    let blen := (get_input_offset cons prod).2
    if blen = 0 then (0, cons)
    else
      let effect := min blen len
      if len ≤ effect then (offset + effect, (cons + effect) % U32_MOD)
      else read_xb_go prod fuel ((cons + effect) % U32_MOD) (len - effect) (offset + effect)

/-- `read_xb` on a request ring with fixed `req_prod`:
`(returned byte count, final req_cons)`. -/
def read_xb (cons prod len : Nat) : Nat × Nat := read_xb_go prod len cons len 0

/-- Index handling at the head of `send_reply_sz` (lines 324-327): the
response indices are zeroed iff `check_indexes` fires; this is the only
place in the source where ring indices are ever reset. -/
def send_reply_indexes (cons prod : Nat) : Nat × Nat :=
  if check_indexes cons prod then (0, 0) else (cons, prod)

/-- Bytes the `xenstore_evt_thrd` body loop (lines 1200-1206) copies into
`input_buffer + HEADER_SIZE` for a frame whose header `len` field is `hlen`,
with the given request-ring indices.  There is no bound check on `hlen`
anywhere on this path. -/
def evt_thrd_body_copied (cons prod hlen : Nat) : Nat := (read_xb cons prod hlen).1

/-- One past the highest `input_buffer` index written by the body loop. -/
def evt_thrd_body_end (cons prod hlen : Nat) : Nat :=
  HEADER_SIZE + evt_thrd_body_copied cons prod hlen

/-- Byte-wise prefix test: `bytePref k p` is true iff the first `k.length`
elements of `p` exist and equal `k`.  This is the value of
`memcmp(k, p, strlen(k)) == 0` / `strncmp(k, p, strlen(k)) == 0` on
NUL-terminated strings (a shorter `p` mismatches at its terminator). -/
def bytePref {α : Type} [BEq α] : List α → List α → Bool
  | [], _ => true
  | _ :: _, [] => false
  | a :: as, b :: bs => a == b && bytePref as bs

/-- `is_abs_path` (lines 135-142): the first byte is `'/'` (an empty string
begins with its NUL terminator, which is not `'/'`). -/
def is_abs_path (p : List Char) : Bool :=
  match p with
  | c :: _ => c == '/'
  | [] => false

/-- `is_root_path` (lines 144-147). -/
def is_root_path (p : List Char) : Bool :=
  is_abs_path p && p.length == 1

/-- `/local/domain/<domid>/` as built by `snprintf("/local/domain/%d/", domid)`
(faithful for `domid < 2^31`, where `%d` prints the decimal numeral). -/
def local_domain_path (domid : Nat) : List Char :=
  "/local/domain/".toList ++ Nat.toDigits 10 domid ++ ['/']

/-- `construct_path` (lines 161-185).  `path_len = strlen(payload) + 1`; the
function fails with `-ENOMEM` iff `path_len > XENSTORE_ABS_PATH_MAX` (the
`k_malloc` failure is not modelled).  An absolute payload is copied verbatim;
a relative one is produced by `snprintf` into a buffer of
`path_len + XENSTORE_MAX_LOCALPATH_LEN` bytes, which truncates the output to
at most `path_len + XENSTORE_MAX_LOCALPATH_LEN - 1 = payload.length + 21`
characters. -/
def construct_path (payload : List Char) (domid : Nat) : Option (List Char) :=
  if payload.length + 1 > XENSTORE_ABS_PATH_MAX then none
  else if is_abs_path payload then some payload
  else some ((local_domain_path domid ++ payload).take (payload.length + XENSTORE_MAX_LOCALPATH_LEN))

/-- Tokenization performed by the `strtok_r(.., "/", ..)` loops: split on
`'/'`, dropping empty tokens. -/
def tok_go : List Char → List Char → List (List Char)
  | [], acc => if acc.isEmpty then [] else [acc.reverse]
  | '/' :: rest, acc => if acc.isEmpty then tok_go rest [] else acc.reverse :: tok_go rest []
  | c :: rest, acc => tok_go rest (c :: acc)

def tokenize (p : List Char) : List (List Char) := tok_go p []

/-- A store node: `struct xs_entry` (lines 32-38).  The tree below the static
root is a list of such nodes; children are kept in insertion order
(`sys_dlist_append`). -/
inductive XsTree where
  | node (key : List Char) (value : Option (List Char)) (children : List XsTree)

def XsTree.key : XsTree → List Char
  | .node k _ _ => k

def XsTree.value : XsTree → Option (List Char)
  | .node _ v _ => v

def XsTree.children : XsTree → List XsTree
  | .node _ _ c => c

/-- Walk of `key_to_entry` (lines 219-233) over already-tokenized input:
`iter` starts as NULL, each token is looked up by `strcmp` in the current
child list, a miss returns NULL, and the node found for the last token is
returned. -/
def key_to_entry_toks : List (List Char) → List XsTree → Option XsTree
  | [], _ => none
  | [t], cs => cs.find? (fun e => e.key == t)
  | t :: t' :: rest, cs =>
    match cs.find? (fun e => e.key == t) with
    | none => none
    | some e => key_to_entry_toks (t' :: rest) e.children

/-- `key_to_entry` (lines 191-238) on a store whose root has child list `cs`:
keys longer than `XENSTORE_ABS_PATH_MAX` fail, the root path returns the
static root object (modelled as a node with empty key and no value), and
everything else walks the tokenized key. -/
def key_to_entry (cs : List XsTree) (key : List Char) : Option XsTree :=
  if key.length > XENSTORE_ABS_PATH_MAX then none
  else if is_root_path key then some (XsTree.node [] none cs)
  else key_to_entry_toks (tokenize key) cs

/-- Remove the first node with the given key from a child list (the effect of
`sys_dlist_remove` in `free_node` on the entry found by `key_to_entry`). -/
def eraseFirstKey (t : List Char) : List XsTree → List XsTree
  | [] => []
  | e :: es => if e.key == t then es else e :: eraseFirstKey t es

/-- Replace the children of the first node with the given key. -/
def replaceFirstChildren (t : List Char) (cs2 : List XsTree) : List XsTree → List XsTree
  | [] => []
  | e :: es => if e.key == t then XsTree.node e.key e.value cs2 :: es else e :: replaceFirstChildren t cs2 es

/-- Replace the value of the first node with the given key (the
`iter->value = new_value` step of `xss_do_write`). -/
def replaceFirstValue (t : List Char) (v : Option (List Char)) : List XsTree → List XsTree
  | [] => []
  | e :: es => if e.key == t then XsTree.node e.key v e.children :: es else e :: replaceFirstValue t v es

/-- Removal of the node addressed by a token list, together with its subtree:
the lookup spine of `key_to_entry` followed by `free_node` (lines 475-490).
Returns `none` when the lookup misses (then `xss_do_rm` fails). -/
def remove_toks : List (List Char) → List XsTree → Option (List XsTree)
  | [], _ => none
  | [t], cs =>
    match cs.find? (fun e => e.key == t) with
    | none => none
    | some _ => some (eraseFirstKey t cs)
  | t :: t' :: rest, cs =>
    match cs.find? (fun e => e.key == t) with
    | none => none
    | some e => (remove_toks (t' :: rest) e.children).map (fun cs2 => replaceFirstChildren t cs2 cs)

/-- `EINVAL` errno value. -/
def EINVAL : Int := 22

/-- `xss_do_rm` (lines 859-874): `key_to_entry` miss gives `-EINVAL`;
otherwise `free_node` destroys the entry and its whole subtree and the
call returns `0`.  For the root path `key_to_entry` returns the static
root itself, so the whole tree is destroyed and `0` is returned (the C
additionally calls `sys_dlist_remove` and `k_free` on the static root
object, which is undefined behaviour; the observable modelled here is the
return code and the destroyed tree). -/
def xss_do_rm (cs : List XsTree) (key : List Char) : Int × List XsTree :=
  if key.length > XENSTORE_ABS_PATH_MAX then (-EINVAL, cs)
  else if is_root_path key then (0, [])
  else
    match remove_toks (tokenize key) cs with
    | none => (-EINVAL, cs)
    | some cs2 => (0, cs2)

/-- Wire message-type numbers from `xsd_sockmsg_type` used below. -/
def XS_READ : Nat := 2

def XS_RM : Nat := 13

def XS_ERROR : Nat := 16

/-- `handle_rm` (lines 887-894).  The payload is passed to `xss_do_rm`
verbatim — no `construct_path`, so `domid` is unused — and the
`XS_RM` reply (empty payload) is sent only in the branch where
`xss_do_rm` returned non-zero, i.e. only when the removal failed.
Returns `(reply sent, resulting store)`. -/
def handle_rm (cs : List XsTree) (domid : Nat) (payload : List Char) : Option (Nat × List Char) × List XsTree :=
  let r := xss_do_rm cs payload
  if r.1 == 0 then (none, r.2) else (some (XS_RM, []), cs)

/-- `handle_read` (lines 830-857): the payload goes through `construct_path`
with the caller's `domid`; a found entry replies `XS_READ` with
`entry->value ? entry->value : ""`, a miss replies `XS_ERROR "ENOENT"`,
and a `construct_path` failure replies the translated errno `"ENOMEM"`. -/
def handle_read (cs : List XsTree) (domid : Nat) (payload : List Char) : Nat × List Char :=
  match construct_path payload domid with
  | none => (XS_ERROR, "ENOMEM".toList)
  | some path =>
    match key_to_entry cs path with
    | some e => (XS_READ, e.value.getD [])
    | none => (XS_ERROR, "ENOENT".toList)

/-- Core of `xss_do_write` (lines 492-579) over tokenized input.  Each token
is looked up in the current child list; a miss creates a node with NULL
value appended at the end of the list; after the walk the leaf's value is
set to a copy of `data` iff `data_len > 0` — i.e. iff `data` is non-NULL
(`data = some v` here; `v = []` is the empty string, whose `data_len` is 1).
Allocation failures are not modelled, so the rollback path is not taken. -/
def write_toks (data : Option (List Char)) : List (List Char) → List XsTree → List XsTree
  | [], cs => cs
  | [t], cs =>
    match cs.find? (fun e => e.key == t) with
    | some _ => if data.isSome then replaceFirstValue t data cs else cs
    | none => cs ++ [XsTree.node t data []]
  | t :: t' :: rest, cs =>
    match cs.find? (fun e => e.key == t) with
    | some e => replaceFirstChildren t (write_toks data (t' :: rest) e.children) cs
    | none => cs ++ [XsTree.node t none (write_toks data (t' :: rest) [])]

/-- `xss_do_write` on a path string. -/
def xss_do_write (cs : List XsTree) (path : List Char) (data : Option (List Char)) : List XsTree :=
  write_toks data (tokenize path) cs

/-- `struct watch_entry` (lines 40-47). -/
structure WatchEntry where
  key : List Char
  token : List Char
  domid : Nat
  is_relative : Bool
deriving DecidableEq

/-- `struct pending_watch_event_entry` (lines 49-54). -/
structure PendingEvent where
  key : List Char
  domid : Nat
deriving DecidableEq

/-- One `XS_WATCH_EVENT` frame as assembled by `fire_watcher`: it is sent to
the draining domain `dest`, with wire payload `epath ++ [NUL] ++ token ++ [NUL]`. -/
structure WatchFrame where
  dest : Nat
  epath : List Char
  token : List Char
deriving DecidableEq

/-- `fire_watcher` (lines 412-460), called while draining domain `d`'s
pending events: it walks the GLOBAL `watch_entry_list` and, for every watch
whose key is a byte-wise prefix of the pending path (`memcmp` over
`strlen(iter->key)` bytes) — with no check of the watch's owning domain —
sends domain `d` a frame carrying THAT watch's token; if that watch was
registered relative, the first `strlen("/local/domain/<d>/")` bytes of the
path are dropped (using the draining domain's id). -/
def fire_watcher (d : Nat) (watches : List WatchEntry) (p : List Char) : List WatchFrame :=
  watches.filterMap (fun w =>
    if bytePref w.key p then
      some ⟨d, if w.is_relative then p.drop (local_domain_path d).length else p, w.token⟩
    else none)

/-- `notify_watchers` (lines 581-626): for every watch whose owner differs
from the caller and whose key is a byte-wise prefix (`strncmp`) of the
mutated path, append one pending event `(path, watch owner)` to the global
pending list (allocation failures not modelled). -/
def notify_watchers (watches : List WatchEntry) (pending : List PendingEvent)
    (path : List Char) (caller_domid : Nat) : List PendingEvent :=
  pending ++ watches.filterMap (fun w =>
    if w.domid != caller_domid && bytePref w.key path then some ⟨path, w.domid⟩ else none)

/-- `process_pending_watch_events` (lines 761-788) for domain `d`: walk the
pending list; entries targeting other domains are kept; an entry targeting
`d` is handed to `fire_watcher` and dequeued.  Returns
`(frames sent to d, remaining pending list)`. -/
def process_pending_watch_events (watches : List WatchEntry) (d : Nat) :
    List PendingEvent → List WatchFrame × List PendingEvent
  | [] => ([], [])
  | e :: rest =>
    if e.domid == d then
      let r := process_pending_watch_events watches d rest
      (fire_watcher d watches e.key ++ r.1, r.2)
    else
      let r := process_pending_watch_events watches d rest
      (r.1, e :: r.2)

/-- The per-entry condition of `key_to_watcher` (lines 118-133) with
`complete = true` and a non-NULL token, as evaluated by the C:
`strlen(key) == strlen(iter->key) && memcmp(iter->key, key, keyl) == 0`
(key lengths equal and `key` a byte prefix of the entry's key, i.e. exact
key equality) and `strlen(token) == 0 || memcmp(iter->token, token,
strlen(iter->token)) == 0` (empty requested token, or the ENTRY's token a
byte prefix of the requested token). -/
def watcher_match_code (key token : List Char) (w : WatchEntry) : Bool :=
  (key.length == w.key.length && bytePref key w.key) &&
  (token.isEmpty || bytePref w.token token)

/-- `key_to_watcher(path, true, token)` over the watch list. -/
def key_to_watcher (watches : List WatchEntry) (key token : List Char) : Option WatchEntry :=
  watches.find? (watcher_match_code key token)

/-- In-place update of the first watch matched by `key_to_watcher`
(`wentry->is_relative = path_is_relative`, line 928); `none` if no match. -/
def watch_update_first (key token : List Char) (rel : Bool) : List WatchEntry → Option (List WatchEntry)
  | [] => none
  | w :: ws =>
    if watcher_match_code key token w then some ({ w with is_relative := rel } :: ws)
    else (watch_update_first key token rel ws).map (fun ws2 => w :: ws2)

/-- Registry effect of `handle_watch` (lines 896-958) after `construct_path`
produced `path` and the token was parsed: if `key_to_watcher(path, true,
token)` finds an entry (owned by ANY domain) its `is_relative` flag is
rewritten in place and nothing is inserted; otherwise a new watch entry for
domain `d` is appended to the global list. -/
def handle_watch_registry (watches : List WatchEntry) (d : Nat)
    (path token : List Char) (rel : Bool) : List WatchEntry :=
  match watch_update_first path token rel watches with
  | some ws => ws
  | none => watches ++ [⟨path, token, d, rel⟩]

/-- C2: the claim says a frame whose header `len` exceeds
`XENSTORE_RING_SIZE` draws an `EINVAL` reply and is discarded, so at most
`XENSTORE_RING_SIZE` body bytes are ever copied.  The code has no such
check: with `req_cons = 16`, `req_prod = 1041` (a full ring of body bytes
behind a consumed 16-byte header) and header `len = 1025 =
XENSTORE_RING_SIZE + 1`, the body loop of `xenstore_evt_thrd` copies all
1025 bytes, writing `input_buffer` indices `16 .. 1040` — past the end of
the 1024-byte buffer — and no error reply is produced on this path. -/
theorem C2_code_bug_eval :
    evt_thrd_body_copied 16 1041 1025 = 1025 ∧
    1025 > XENSTORE_RING_SIZE ∧
    evt_thrd_body_end 16 1041 1025 > INPUT_BUFFER_SIZE := by
  decide

/-- C3: counterexample.  With `req_cons = 0`, `req_prod = 1025` the modular
difference is `1025 > XENSTORE_RING_SIZE`, i.e. the corruption predicate
`check_indexes` holds, yet `read_xb` — which never consults
`check_indexes` — consumes the 16 header bytes and advances `req_cons` to
16: neither request index is reset to zero and the frame is not dropped. -/
theorem C3_counterexample :
    check_indexes 0 1025 = true ∧
    read_xb 0 1025 HEADER_SIZE = (HEADER_SIZE, HEADER_SIZE) ∧
    (read_xb 0 1025 HEADER_SIZE).2 ≠ 0 := by
  decide

/-- C4: counterexample.  With `rsp_cons = 0`, `rsp_prod = 1024` the ring is
completely full of unconsumed bytes (`rsp_prod - rsp_cons = 1024 ≤ N`, and
`check_indexes` does not fire), so the claimed bound
`min (N - (rsp_prod - rsp_cons)) (N - rsp_prod mod N)` is `min 0 1024 = 0`;
yet `write_xb`'s first copy for a 1-byte reply moves 1 byte, overwriting a
byte the guest has not consumed. -/
theorem C4_counterexample :
    u32_sub 1024 0 ≤ XENSTORE_RING_SIZE ∧
    check_indexes 0 1024 = false ∧
    ¬ (write_xb_first_copy 0 1024 1 ≤
        min (XENSTORE_RING_SIZE - u32_sub 1024 0) (XENSTORE_RING_SIZE - MASK_XENSTORE_IDX 1024)) := by
  decide

def c5_store : List XsTree := [XsTree.node "a".toList none []]

/-- C5: counterexample.  Removing the existing node `/a` succeeds
(`xss_do_rm` returns 0) and `handle_rm` sends NO reply; removing the absent
node from an empty store fails and `handle_rm` DOES send the empty `XS_RM`
reply — the exact opposite of the claim's "reply only on success, no reply
when the node is absent". -/
theorem C5_counterexample :
    (xss_do_rm c5_store "/a".toList).1 = 0 ∧
    (handle_rm c5_store 3 "/a".toList).1 = none ∧
    (handle_rm ([] : List XsTree) 3 "/a".toList).1 = some (XS_RM, []) :=
  ⟨rfl, rfl, rfl⟩

def c6_store : List XsTree :=
  [XsTree.node "a".toList (some "v".toList) [XsTree.node "b".toList none []]]

/-- C6: the claim (and §4.C of the spec) says `rm("/")` is not valid: it
should fail and leave the tree unchanged.  In the code `key_to_entry("/")`
returns the static root itself and `xss_do_rm` calls `free_node` on it:
the call returns 0 (success) and the whole tree is destroyed (the C
additionally runs `sys_dlist_remove`/`k_free` on the static, never-linked
root object — undefined behaviour).  The absent-path half of the claim is
accurate: removing a missing node returns `-EINVAL`. -/
theorem C6_code_bug_eval :
    (xss_do_rm c6_store "/".toList).1 = 0 ∧
    (xss_do_rm c6_store "/".toList).2 = [] ∧
    (xss_do_rm c6_store "/nope".toList).1 = -EINVAL :=
  ⟨rfl, rfl, rfl⟩

def c1_watches : List WatchEntry :=
  [⟨"/a".toList, "t1".toList, 1, false⟩, ⟨"/a".toList, "t2".toList, 2, false⟩]

/-- C1: counterexample.  Domains 1 and 2 each hold a watch with key `/a`
(tokens `t1`, `t2`).  A mutation at `/a/b` by domain 0 queues one pending
event per matching watch; draining domain 1's queue then runs
`fire_watcher`, which walks the GLOBAL watch list with no owner check, so
domain 1 receives TWO `XS_WATCH_EVENT` frames for the one mutation — the
second carrying domain 2's token — refuting "exactly one frame ... using
the token of G's own matching watch". -/
theorem C1_counterexample :
    notify_watchers c1_watches [] "/a/b".toList 0 =
      [⟨"/a/b".toList, 1⟩, ⟨"/a/b".toList, 2⟩] ∧
    (process_pending_watch_events c1_watches 1
        (notify_watchers c1_watches [] "/a/b".toList 0)).1 =
      [⟨1, "/a/b".toList, "t1".toList⟩, ⟨1, "/a/b".toList, "t2".toList⟩] ∧
    ((process_pending_watch_events c1_watches 1
        (notify_watchers c1_watches [] "/a/b".toList 0)).1).length ≠ 1 := by
  decide

def c8_watches : List WatchEntry := [⟨"/a".toList, "ab".toList, 1, false⟩]

/-- C8: counterexample.  The only existing watch has key `/a` and token
`ab`.  A watch-add request for the same key with the DIFFERENT token `abc`
still hits the in-place-update branch (the `key_to_watcher` token test
`memcmp(iter->token, token, strlen(iter->token))` only requires the
existing token to be a byte prefix of the requested one), so no new watch
is inserted and the existing entry's flag is rewritten — refuting the
claim's "if and only if ... exactly the same token T". -/
theorem C8_counterexample :
    handle_watch_registry c8_watches 2 "/a".toList "abc".toList true =
      [⟨"/a".toList, "ab".toList, 1, true⟩] ∧
    "abc".toList ≠ "ab".toList := by
  decide

def c10_store : List XsTree :=
  [XsTree.node "local".toList none [XsTree.node "domain".toList none
    [XsTree.node "3".toList none [XsTree.node "cfg".toList (some "v".toList) []]]]]

def c10_home_path : List (List Char) :=
  ["local".toList, "domain".toList, "3".toList, "cfg".toList]

/-- C10: counterexample.  The relative payload `local/domain/3/cfg`
(no leading `/`) issued by domain 3 is looked up verbatim from the root by
`handle_rm`, which resolves it to `/local/domain/3/cfg` — a node INSIDE the
issuing guest's home subtree — and removes it, refuting "a relative RM
request never removes a node inside the issuing guest's home subtree". -/
theorem C10_counterexample :
    is_abs_path "local/domain/3/cfg".toList = false ∧
    (key_to_entry_toks c10_home_path c10_store).isSome = true ∧
    (key_to_entry_toks c10_home_path
        (handle_rm c10_store 3 "local/domain/3/cfg".toList).2).isSome = false := by
  decide

def c7_payload : List Char := 'a' :: List.replicate 3070 'a'

/-- C7: counterexample.  A relative payload of 3071 `'a'`s has
`path_len = 3072 = XENSTORE_ABS_PATH_MAX`, so `construct_path` succeeds,
yet the combined prefixed path `/local/domain/0/aaa...` is 3087 characters
(3088 bytes with its terminator), exceeding `XENSTORE_ABS_PATH_MAX` —
refuting "fails ... exactly when the combined (prefixed) length exceeds
XENSTORE_ABS_PATH_MAX": only the payload's own length is checked. -/
theorem C7_counterexample :
    (construct_path c7_payload 0).isSome = true ∧
    ((construct_path c7_payload 0).getD []).length + 1 > XENSTORE_ABS_PATH_MAX := by
  have h_len : c7_payload.length = 3071 := by
    unfold c7_payload
    rw [List.length_cons, List.length_replicate]
  have h_abs : is_abs_path c7_payload = false := rfl
  have h_pre : (local_domain_path 0).length = 16 := by decide
  have h_eq : construct_path c7_payload 0 =
      some ((local_domain_path 0 ++ c7_payload).take 3092) := by
    unfold construct_path
    rw [h_len, h_abs]
    norm_num [XENSTORE_ABS_PATH_MAX, XENSTORE_MAX_LOCALPATH_LEN]
  rw [h_eq]
  refine ⟨rfl, ?_⟩
  rw [Option.getD_some, List.length_take, List.length_append, h_pre, h_len]
  unfold XENSTORE_ABS_PATH_MAX
  omega

/-- C4: amended claim.  For response indices with
`rsp_prod - rsp_cons ≤ XENSTORE_RING_SIZE` the length of a single `write_xb`
copy equals `min len (N - rsp_prod mod N)`: it never crosses the wrap
boundary, but — contrary to the original claim — it is NOT also bounded by
the free space `N - (rsp_prod - rsp_cons)`: the code's
`delta = XENSTORE_RING_SIZE - cons + prod` evaluates to `N + used`, never
below the tail length, so the free-space term never limits the copy. -/
theorem C4_amended_thm (cons prod len : Nat) (h1 : cons < U32_MOD) (h2 : prod < U32_MOD)
    (h3 : u32_sub prod cons ≤ XENSTORE_RING_SIZE) :
    write_xb_first_copy cons prod len = min len (XENSTORE_RING_SIZE - MASK_XENSTORE_IDX prod) := by
  unfold u32_sub at h3
  simp only [write_xb_first_copy, get_output_offset, MASK_XENSTORE_IDX]
  simp only [U32_MOD, XENSTORE_RING_SIZE] at h1 h2 h3 ⊢
  have hc : cons % 4294967296 = cons := Nat.mod_eq_of_lt h1
  have hp : prod % 4294967296 = prod := Nat.mod_eq_of_lt h2
  rw [hc, hp]
  rw [hc, hp] at h3
  have hkey : ¬ ((1024 + 4294967296 - cons + prod) % 4294967296 < 1024 - prod % 1024) := by
    omega
  rw [if_neg hkey]
  exact Nat.min_comm _ _

/-- C4: witness — `C4_amended_thm` applied at `rsp_cons = 0`, `rsp_prod = 16`
for a 100-byte reply. -/
theorem C4_witness : write_xb_first_copy 0 16 100 = 100 := by
  have h := C4_amended_thm 0 16 100 (by decide) (by decide) (by decide)
  rw [h]
  decide

/-- `read_xb` only ever ADVANCES the consumer index: whatever the ring
state, the final `req_cons` is the initial one plus the consumed byte count
(at most `len`), reduced mod `2^32`.  In particular it never resets the
index to zero on a corrupt ring. -/
theorem read_xb_go_advance (prod : Nat) :
    ∀ (fuel cons len offset : Nat), cons < U32_MOD →
      ∃ k, k ≤ len ∧ (read_xb_go prod fuel cons len offset).2 = (cons + k) % U32_MOD := by
  intro fuel
  induction fuel with
  | zero =>
    intro cons len offset h
    exact ⟨0, Nat.zero_le _, by simp [read_xb_go, Nat.mod_eq_of_lt h]⟩
  | succ n ih =>
    intro cons len offset h
    by_cases hb : (get_input_offset cons prod).2 = 0
    · refine ⟨0, Nat.zero_le _, ?_⟩
      simp [read_xb_go, hb, Nat.mod_eq_of_lt h]
    · by_cases hl : len ≤ min (get_input_offset cons prod).2 len
      · refine ⟨min (get_input_offset cons prod).2 len, Nat.min_le_right _ _, ?_⟩
        simp [read_xb_go, hb, hl]
      · obtain ⟨k', hk', heq⟩ := ih ((cons + min (get_input_offset cons prod).2 len) % U32_MOD)
          (len - min (get_input_offset cons prod).2 len)
          (offset + min (get_input_offset cons prod).2 len)
          (Nat.mod_lt _ (by decide))
        refine ⟨min (get_input_offset cons prod).2 len + k', ?_, ?_⟩
        · have hm := Nat.min_le_right (get_input_offset cons prod).2 len
          omega
        · simp only [read_xb_go]
          rw [if_neg hb, if_neg hl]
          rw [heq, Nat.mod_add_mod, Nat.add_assoc]

/-- C3: amended claim.  The `delta > N` check-and-reset exists only on the
RESPONSE ring: `send_reply_sz` zeroes `rsp_cons`/`rsp_prod` exactly when
`check_indexes` fires.  The request-ring consumer performs no such
recovery: `read_xb` never consults `check_indexes` and only ever advances
`req_cons` by the number of bytes consumed (at most `len`, mod `2^32`) —
it does not reset the indices or drop the in-flight frame. -/
theorem C3_amended_thm (cons prod len : Nat) (h : cons < U32_MOD) :
    (check_indexes cons prod = true → send_reply_indexes cons prod = (0, 0)) ∧
    (check_indexes cons prod = false → send_reply_indexes cons prod = (cons, prod)) ∧
    (∃ k, k ≤ len ∧ (read_xb cons prod len).2 = (cons + k) % U32_MOD) := by
  refine ⟨fun hc => ?_, fun hc => ?_, ?_⟩
  · simp [send_reply_indexes, hc]
  · simp [send_reply_indexes, hc]
  · exact read_xb_go_advance prod len cons len 0 h

/-- C3: witness — `C3_amended_thm` at the corrupt state `cons = 0`,
`prod = 1025` with a 16-byte header read. -/
theorem C3_witness :
    send_reply_indexes 0 1025 = (0, 0) ∧
    ∃ k, k ≤ 16 ∧ (read_xb 0 1025 16).2 = (0 + k) % U32_MOD := by
  have h := C3_amended_thm 0 1025 16 (by decide)
  exact ⟨h.1 (by decide), h.2.2⟩

theorem bytePref_refl {α : Type} [BEq α] [LawfulBEq α] (a : List α) : bytePref a a = true := by
  induction a with
  | nil => rfl
  | cons x xs ih => simp [bytePref, ih]

theorem bytePref_eq_of_length {α : Type} [BEq α] [LawfulBEq α] :
    ∀ {a b : List α}, a.length = b.length → bytePref a b = true → b = a := by
  intro a
  induction a with
  | nil =>
    intro b h1 _
    cases b with
    | nil => rfl
    | cons y ys => simp at h1
  | cons x xs ih =>
    intro b h1 h2
    cases b with
    | nil => simp [bytePref] at h2
    | cons y ys =>
      simp only [bytePref, Bool.and_eq_true, beq_iff_eq] at h2
      obtain ⟨hxy, hrest⟩ := h2
      simp only [List.length_cons, Nat.add_right_cancel_iff] at h1
      rw [ih h1 hrest, hxy]

theorem key_part_eq (a b : List Char) : (a.length == b.length && bytePref a b) = (b == a) := by
  by_cases h : b = a
  · subst h
    simp [bytePref_refl]
  · have h2 : (b == a) = false := by simp [h]
    rw [h2]
    by_cases hlen : a.length = b.length
    · by_cases hp : bytePref a b = true
      · exact absurd (bytePref_eq_of_length hlen hp) h
      · have : bytePref a b = false := by
          cases hq : bytePref a b
          · rfl
          · exact absurd hq hp
        simp [this]
    · have : (a.length == b.length) = false := by simp [hlen]
      simp [this]

/-- The update/insert decision of `handle_watch` in spec terms: some watch
has EXACTLY the requesting key and a token compatible under the code's rule
(requested token empty, or the existing token a byte prefix of it). -/
def watch_update_pred (key token : List Char) (w : WatchEntry) : Bool :=
  w.key == key && (token.isEmpty || bytePref w.token token)

theorem watcher_match_code_eq (key token : List Char) (w : WatchEntry) :
    watcher_match_code key token w = watch_update_pred key token w := by
  unfold watcher_match_code watch_update_pred
  rw [key_part_eq]

theorem any_match_eq (p t : List Char) (W : List WatchEntry) :
    W.any (watcher_match_code p t) = W.any (watch_update_pred p t) := by
  induction W with
  | nil => rfl
  | cons w ws ih => simp [List.any_cons, ih, watcher_match_code_eq]

theorem watch_update_first_none_iff (p t : List Char) (rel : Bool) :
    ∀ W : List WatchEntry,
      watch_update_first p t rel W = none ↔ W.any (watcher_match_code p t) = false := by
  intro W
  induction W with
  | nil => simp [watch_update_first]
  | cons w ws ih =>
    by_cases hm : watcher_match_code p t w = true
    · simp [watch_update_first, hm, List.any_cons]
    · have hm' : watcher_match_code p t w = false := by
        cases hq : watcher_match_code p t w
        · rfl
        · exact absurd hq hm
      simp [watch_update_first, hm', List.any_cons]
      simpa using ih

theorem watch_update_first_map (p t : List Char) (rel : Bool) :
    ∀ (W ws2 : List WatchEntry), watch_update_first p t rel W = some ws2 →
      ws2.map (fun w => (w.key, w.token, w.domid)) = W.map (fun w => (w.key, w.token, w.domid)) := by
  intro W
  induction W with
  | nil => intro ws2 h; simp [watch_update_first] at h
  | cons w ws ih =>
    intro ws2 h
    by_cases hm : watcher_match_code p t w = true
    · simp [watch_update_first, hm] at h
      rw [← h]
      simp
    · have hm' : watcher_match_code p t w = false := by
        cases hq : watcher_match_code p t w
        · rfl
        · exact absurd hq hm
      simp [watch_update_first, hm'] at h
      obtain ⟨a, ha, rfl⟩ := h
      simp [ih a ha]

/-- C8: amended claim.  The existing watch updated in place is found by
exact KEY equality but only token COMPATIBILITY: a requested token that is
empty, or that extends an existing watch's token (the existing token being
a byte prefix of it), hits the update branch of `handle_watch` — the update
rewrites only the `is_relative` flag (keys, tokens and owners are
unchanged) and inserts nothing; a new watch entry for the requesting guest
is appended exactly when no existing watch (of any guest) matches this
relaxed rule. -/
theorem C8_amended_thm (W : List WatchEntry) (d : Nat) (p t : List Char) (rel : Bool) :
    (W.any (watch_update_pred p t) = false →
      handle_watch_registry W d p t rel = W ++ [⟨p, t, d, rel⟩]) ∧
    (W.any (watch_update_pred p t) = true →
      (handle_watch_registry W d p t rel).map (fun w => (w.key, w.token, w.domid)) =
        W.map (fun w => (w.key, w.token, w.domid))) := by
  constructor
  · intro h
    rw [← any_match_eq] at h
    have hn := (watch_update_first_none_iff p t rel W).mpr h
    unfold handle_watch_registry
    rw [hn]
  · intro h
    rw [← any_match_eq] at h
    have hne : watch_update_first p t rel W ≠ none := by
      rw [Ne, watch_update_first_none_iff]
      simp [h]
    cases hu : watch_update_first p t rel W with
    | none => exact absurd hu hne
    | some ws2 =>
      unfold handle_watch_registry
      rw [hu]
      exact watch_update_first_map p t rel W ws2 hu

theorem C8_witness :
    handle_watch_registry [] 2 "/a".toList "t".toList true =
      [⟨"/a".toList, "t".toList, 2, true⟩] ∧
    (handle_watch_registry [⟨"/a".toList, "t".toList, 1, false⟩] 2 "/a".toList "t".toList
        false).map (fun w => (w.key, w.token, w.domid)) =
      [("/a".toList, "t".toList, 1)] := by
  constructor
  · have h := (C8_amended_thm [] 2 "/a".toList "t".toList true).1 (by decide)
    simpa using h
  · have h := (C8_amended_thm [⟨"/a".toList, "t".toList, 1, false⟩] 2 "/a".toList "t".toList
      false).2 (by decide)
    rw [h]
    decide

/-- C1: amended claim (drain characterization).  Draining domain `d`'s
queue dequeues exactly the pending events targeting `d` (others are kept in
order), and for EACH such event emits one frame per watch in the global
registry whose key is a byte prefix of the event path — regardless of which
guest owns that watch — carrying that watch's token (with
`/local/domain/<d>/` stripped iff that watch is relative).  So a mutation
produces as many frames for `d` as there are matching watches, not exactly
one, and the tokens may belong to other guests' watches. -/
theorem C1_amended_thm (W : List WatchEntry) (d : Nat) (pending : List PendingEvent) :
    (process_pending_watch_events W d pending).2 =
      pending.filter (fun e => e.domid != d) ∧
    (process_pending_watch_events W d pending).1 =
      (pending.filter (fun e => e.domid == d)).flatMap (fun e => fire_watcher d W e.key) := by
  induction pending with
  | nil => exact ⟨rfl, rfl⟩
  | cons e rest ih =>
    by_cases he : e.domid = d
    · simp [process_pending_watch_events, he, ih.1, ih.2, List.filter_cons]
    · simp [process_pending_watch_events, he, ih.1, ih.2, List.filter_cons]

/-- C7: amended claim.  `construct_path` fails with out-of-memory exactly
when the PAYLOAD's own byte size (`strlen + 1`) exceeds
`XENSTORE_ABS_PATH_MAX`; the combined prefixed length is never checked.
Within that bound an absolute payload is returned verbatim and a relative
payload gets the `/local/domain/<domid>/` prefix (exactly, whenever the
decimal `domid` has at most six digits, so that the `snprintf` buffer
cannot truncate). -/
theorem C7_amended_thm (payload : List Char) (domid : Nat) :
    (construct_path payload domid = none ↔ payload.length + 1 > XENSTORE_ABS_PATH_MAX) ∧
    (payload.length + 1 ≤ XENSTORE_ABS_PATH_MAX → is_abs_path payload = true →
      construct_path payload domid = some payload) ∧
    (payload.length + 1 ≤ XENSTORE_ABS_PATH_MAX → is_abs_path payload = false →
      (Nat.toDigits 10 domid).length ≤ 6 →
      construct_path payload domid = some (local_domain_path domid ++ payload)) := by
  refine ⟨?_, ?_, ?_⟩
  · unfold construct_path
    by_cases h : payload.length + 1 > XENSTORE_ABS_PATH_MAX
    · simp [h]
    · rw [if_neg h]
      by_cases ha : is_abs_path payload = true
      · simp [ha, h]
      · have ha' : is_abs_path payload = false := by
          cases hq : is_abs_path payload
          · rfl
          · exact absurd hq ha
        simp [ha', h]
  · intro h1 h2
    unfold construct_path
    rw [if_neg (by omega), if_pos h2]
  · intro h1 h2 h3
    unfold construct_path
    rw [if_neg (by omega), if_neg (by simp [h2])]
    have h14 : ("/local/domain/".toList).length = 14 := by decide
    have hlen : (local_domain_path domid ++ payload).length ≤
        payload.length + XENSTORE_MAX_LOCALPATH_LEN := by
      unfold local_domain_path XENSTORE_MAX_LOCALPATH_LEN
      simp [List.length_append, h14]
      omega
    rw [List.take_of_length_le hlen]

/-- C7: witness — `C7_amended_thm` applied to the absolute payload `/a` and
the relative payload `a`, both from domain 5. -/
theorem C7_witness :
    construct_path "/a".toList 5 = some "/a".toList ∧
    construct_path "a".toList 5 = some "/local/domain/5/a".toList := by
  constructor
  · exact (C7_amended_thm "/a".toList 5).2.1 (by decide) (by decide)
  · have h := (C7_amended_thm "a".toList 5).2.2 (by decide) (by decide) (by decide)
    rw [h]
    decide

theorem is_root_path_iff (q : List Char) : is_root_path q = true ↔ q = ['/'] := by
  unfold is_root_path is_abs_path
  cases q with
  | nil => simp
  | cons c r =>
    cases r with
    | nil => simp
    | cons c2 r2 => simp

theorem remove_toks_none_iff : ∀ (T : List (List Char)) (cs : List XsTree),
    remove_toks T cs = none ↔ key_to_entry_toks T cs = none := by
  intro T
  induction T with
  | nil => intro cs; simp [remove_toks, key_to_entry_toks]
  | cons t rest ih =>
    intro cs
    cases rest with
    | nil =>
      cases h : cs.find? (fun e => e.key == t) with
      | none => simp [remove_toks, key_to_entry_toks, h]
      | some e => simp [remove_toks, key_to_entry_toks, h]
    | cons t2 r2 =>
      cases h : cs.find? (fun e => e.key == t) with
      | none => simp [remove_toks, key_to_entry_toks, h]
      | some e => simp [remove_toks, key_to_entry_toks, h, ih]

/-- C5: amended claim.  `handle_rm` sends the empty `XS_RM` reply exactly
when the removal FAILS — i.e. exactly when `key_to_entry` cannot resolve
the payload — and sends no reply at all when the removal succeeds. -/
theorem C5_amended_thm (cs : List XsTree) (d : Nat) (p : List Char) :
    ((handle_rm cs d p).1 = some (XS_RM, []) ↔ key_to_entry cs p = none) ∧
    ((handle_rm cs d p).1 = none ↔ (key_to_entry cs p).isSome = true) := by
  have hne : ((-EINVAL : Int) == 0) = false := by decide
  have h0 : ((0 : Int) == 0) = true := by decide
  unfold handle_rm xss_do_rm key_to_entry
  by_cases h1 : p.length > XENSTORE_ABS_PATH_MAX
  · simp [h1, hne]
  · rw [if_neg h1, if_neg h1]
    by_cases h2 : is_root_path p = true
    · simp [h2, h0]
    · have h2' : is_root_path p = false := by
        cases hq : is_root_path p
        · rfl
        · exact absurd hq h2
      cases hr : remove_toks (tokenize p) cs with
      | none =>
        have hk := (remove_toks_none_iff (tokenize p) cs).mp hr
        simp [h2', hr, hk, hne]
      | some cs2 =>
        have hk : key_to_entry_toks (tokenize p) cs ≠ none := by
          intro hnone
          rw [← remove_toks_none_iff] at hnone
          rw [hnone] at hr
          exact Option.noConfusion hr
        simp [h2', hr, h0, hk, Option.isSome_iff_ne_none]

theorem find?_append_none {q : XsTree → Bool} {cs ds : List XsTree} (h : cs.find? q = none) :
    (cs ++ ds).find? q = ds.find? q := by
  induction cs with
  | nil => rfl
  | cons e es ih =>
    rw [List.cons_append]
    rw [List.find?_cons] at h ⊢
    cases hq : q e with
    | true => rw [hq] at h; exact Option.noConfusion h
    | false => rw [hq] at h; exact ih h

theorem find?_replaceFirstValue {t : List Char} {v : Option (List Char)} :
    ∀ {cs : List XsTree} {e : XsTree},
      cs.find? (fun x => x.key == t) = some e →
      (replaceFirstValue t v cs).find? (fun x => x.key == t) =
        some (XsTree.node e.key v e.children) := by
  intro cs
  induction cs with
  | nil => intro e h; exact Option.noConfusion h
  | cons x xs ih =>
    cases x with
    | node xk xv xc =>
      intro e h
      cases hx : (xk == t) with
      | true =>
        rw [List.find?_cons] at h
        simp only [XsTree.key, hx] at h
        injection h with h
        subst h
        simp only [replaceFirstValue, XsTree.key, XsTree.value, XsTree.children, if_pos hx]
        rw [List.find?_cons]
        simp only [XsTree.key, hx]
      | false =>
        rw [List.find?_cons] at h
        simp only [XsTree.key, hx] at h
        simp [replaceFirstValue, hx, List.find?_cons, XsTree.key]
        exact ih h

theorem find?_replaceFirstChildren_self {t : List Char} {cs2 : List XsTree} :
    ∀ {cs : List XsTree} {e : XsTree},
      cs.find? (fun x => x.key == t) = some e →
      (replaceFirstChildren t cs2 cs).find? (fun x => x.key == t) =
        some (XsTree.node e.key e.value cs2) := by
  intro cs
  induction cs with
  | nil => intro e h; exact Option.noConfusion h
  | cons x xs ih =>
    cases x with
    | node xk xv xc =>
      intro e h
      cases hx : (xk == t) with
      | true =>
        rw [List.find?_cons] at h
        simp only [XsTree.key, hx] at h
        injection h with h
        subst h
        simp only [replaceFirstChildren, XsTree.key, XsTree.value, XsTree.children, if_pos hx]
        rw [List.find?_cons]
        simp only [XsTree.key, hx]
      | false =>
        rw [List.find?_cons] at h
        simp only [XsTree.key, hx] at h
        simp [replaceFirstChildren, hx, List.find?_cons, XsTree.key]
        exact ih h

theorem find?_eraseFirstKey {t s : List Char} (hne : s ≠ t) :
    ∀ cs : List XsTree,
      (eraseFirstKey t cs).find? (fun x => x.key == s) = cs.find? (fun x => x.key == s) := by
  intro cs
  induction cs with
  | nil => rfl
  | cons x xs ih =>
    cases x with
    | node xk xv xc =>
      cases hx : (xk == t) with
      | true =>
        have hxt : xk = t := by simpa using hx
        have hxs : (xk == s) = false := by
          subst hxt
          simp
          exact fun hh => hne hh.symm
        simp [eraseFirstKey, XsTree.key, hx, List.find?_cons, hxs]
      | false =>
        cases hxs : (xk == s) with
        | true => simp [eraseFirstKey, XsTree.key, hx, List.find?_cons, hxs]
        | false =>
          simp [eraseFirstKey, XsTree.key, hx, List.find?_cons, hxs]
          exact ih

theorem find?_replaceFirstChildren_ne {t s : List Char} {cs2 : List XsTree} (hne : s ≠ t) :
    ∀ cs : List XsTree,
      (replaceFirstChildren t cs2 cs).find? (fun x => x.key == s) =
        cs.find? (fun x => x.key == s) := by
  intro cs
  induction cs with
  | nil => rfl
  | cons x xs ih =>
    cases x with
    | node xk xv xc =>
      cases hx : (xk == t) with
      | true =>
        have hxt : xk = t := by simpa using hx
        have hxs : (xk == s) = false := by
          subst hxt
          simp
          exact fun hh => hne hh.symm
        simp [replaceFirstChildren, XsTree.key, hx, List.find?_cons, hxs]
      | false =>
        cases hxs : (xk == s) with
        | true => simp [replaceFirstChildren, XsTree.key, hx, List.find?_cons, hxs]
        | false =>
          simp [replaceFirstChildren, XsTree.key, hx, List.find?_cons, hxs]
          exact ih

/-- After `xss_do_write` along a non-empty token path, looking the same
path up finds a node whose value is the written data (missing nodes are
created and appended; the leaf's value is set because `data_len > 0`). -/
theorem lookup_write_toks (v : List Char) :
    ∀ (T : List (List Char)) (cs : List XsTree), T ≠ [] →
      (key_to_entry_toks T (write_toks (some v) T cs)).map XsTree.value = some (some v) := by
  intro T
  induction T with
  | nil => intro cs h; exact absurd rfl h
  | cons t rest ih =>
    intro cs _
    cases rest with
    | nil =>
      cases hf : cs.find? (fun e => e.key == t) with
      | some e =>
        simp only [write_toks, hf, key_to_entry_toks, Option.isSome_some, if_true]
        rw [find?_replaceFirstValue hf]
        simp [XsTree.value]
      | none =>
        simp only [write_toks, hf, key_to_entry_toks]
        rw [find?_append_none hf]
        simp [List.find?_cons, XsTree.key, XsTree.value]
    | cons t2 r2 =>
      cases hf : cs.find? (fun e => e.key == t) with
      | some e =>
        simp only [write_toks, hf, key_to_entry_toks]
        rw [find?_replaceFirstChildren_self hf]
        simp only [XsTree.children]
        exact ih e.children (by simp)
      | none =>
        simp only [write_toks, hf, key_to_entry_toks]
        rw [find?_append_none hf]
        simp only [List.find?_cons, XsTree.key, beq_self_eq_true, XsTree.children]
        simpa using ih [] (by simp)

/-- C9: a node that exists without a value reads as the empty string via
`handle_read` (the reply is `entry->value ? entry->value : ""`), and after
writing the empty value along the constructed path, reading the same
payload yields the empty string, not ENOENT. -/
theorem C9_thm (cs : List XsTree) (d : Nat) (p q : List Char)
    (hcp : construct_path p d = some q) :
    (∀ e, key_to_entry cs q = some e → e.value = none → handle_read cs d p = (XS_READ, [])) ∧
    (q.length ≤ XENSTORE_ABS_PATH_MAX → tokenize q ≠ [] →
      handle_read (xss_do_write cs q (some [])) d p = (XS_READ, [])) := by
  constructor
  · intro e he hv
    simp [handle_read, hcp, he, hv]
  · intro hlen htoks
    have hroot : is_root_path q = false := by
      cases hq : is_root_path q
      · rfl
      · exfalso
        have hq' := (is_root_path_iff q).mp hq
        rw [hq'] at htoks
        exact htoks rfl
    have hnl : ¬ (q.length > XENSTORE_ABS_PATH_MAX) := by omega
    have hw := lookup_write_toks [] (tokenize q) cs htoks
    cases hke : key_to_entry_toks (tokenize q) (write_toks (some []) (tokenize q) cs) with
    | none =>
      rw [hke] at hw
      exact Option.noConfusion hw
    | some e' =>
      rw [hke] at hw
      have hval : e'.value = some [] := by simpa using hw
      simp [handle_read, hcp, key_to_entry, xss_do_write, hnl, hroot, hke, hval]

/-- C9: witness — `C9_thm` applied to a store holding a valueless node `a`
read as `/a` by domain 2, and to a write of the empty value at `/a` on the
empty store followed by the same read. -/
theorem C9_witness :
    handle_read [XsTree.node "a".toList none []] 2 "/a".toList = (XS_READ, []) ∧
    handle_read (xss_do_write [] "/a".toList (some [])) 2 "/a".toList = (XS_READ, []) := by
  have h1 := C9_thm [XsTree.node "a".toList none []] 2 "/a".toList "/a".toList rfl
  have h2 := C9_thm [] 2 "/a".toList "/a".toList rfl
  exact ⟨h1.1 (XsTree.node "a".toList none []) rfl rfl, h2.2 (by decide) (by decide)⟩

/-- Removing the subtree at token path `T` does not change whether any
token path `S` that does not extend `T` resolves in the store. -/
theorem lookup_remove_isSome :
    ∀ (T : List (List Char)) (cs cs2 : List XsTree) (S : List (List Char)),
      remove_toks T cs = some cs2 → bytePref T S = false →
      (key_to_entry_toks S cs2).isSome = (key_to_entry_toks S cs).isSome := by
  intro T
  induction T with
  | nil =>
    intro cs cs2 S h _
    simp [remove_toks] at h
  | cons t rest ih =>
    intro cs cs2 S hrem hpref
    cases rest with
    | nil =>
      cases hf : cs.find? (fun e => e.key == t) with
      | none => simp [remove_toks, hf] at hrem
      | some e =>
        have hcs2 : eraseFirstKey t cs = cs2 := by simpa [remove_toks, hf] using hrem
        subst hcs2
        cases S with
        | nil => simp [key_to_entry_toks]
        | cons s S' =>
          have hts : (t == s) = false := by simpa [bytePref] using hpref
          have hne : s ≠ t := by
            intro hh
            subst hh
            simp at hts
          cases S' with
          | nil => simp [key_to_entry_toks, find?_eraseFirstKey hne]
          | cons s2 r => simp [key_to_entry_toks, find?_eraseFirstKey hne]
    | cons t2 r2 =>
      cases hf : cs.find? (fun e => e.key == t) with
      | none => simp [remove_toks, hf] at hrem
      | some e =>
        cases hr2 : remove_toks (t2 :: r2) e.children with
        | none => simp [remove_toks, hf, hr2] at hrem
        | some cs2' =>
          have hcs2 : replaceFirstChildren t cs2' cs = cs2 := by
            simpa [remove_toks, hf, hr2] using hrem
          subst hcs2
          cases S with
          | nil => simp [key_to_entry_toks]
          | cons s S' =>
            cases hts : (t == s) with
            | true =>
              have ht : t = s := by simpa using hts
              subst ht
              have hp2 : bytePref (t2 :: r2) S' = false := by
                simpa [bytePref] using hpref
              cases S' with
              | nil => simp [key_to_entry_toks, find?_replaceFirstChildren_self hf, hf]
              | cons s2 r =>
                simp only [key_to_entry_toks, find?_replaceFirstChildren_self hf, hf,
                  XsTree.children]
                exact ih e.children cs2' (s2 :: r) hr2 hp2
            | false =>
              have hne : s ≠ t := by
                intro hh
                subst hh
                simp at hts
              cases S' with
              | nil => simp [key_to_entry_toks, find?_replaceFirstChildren_ne hne]
              | cons s2 r => simp [key_to_entry_toks, find?_replaceFirstChildren_ne hne]

/-- C10: amended claim.  `handle_rm` passes the payload to `xss_do_rm`
verbatim — the guest's `domid` plays no role, unlike `handle_read` which
routes the payload through `construct_path` — so a relative payload `p` is
resolved from the ROOT as `/p`.  Consequently it can only unlink nodes
whose token path extends `tokenize p`: any path it does not byte-prefix
(in particular a home-subtree path `local/domain/<d>/...` when the payload
does not itself spell out that chain) still resolves exactly as before. -/
theorem C10_amended_thm (cs : List XsTree) (d d2 : Nat) (p : List Char) (S : List (List Char)) :
    handle_rm cs d p = handle_rm cs d2 p ∧
    (bytePref (tokenize p) S = false →
      (key_to_entry_toks S (handle_rm cs d p).2).isSome = (key_to_entry_toks S cs).isSome) := by
  constructor
  · rfl
  · intro hpref
    have h0 : ((0 : Int) == 0) = true := by decide
    have hne : ((-EINVAL : Int) == 0) = false := by decide
    unfold handle_rm xss_do_rm
    by_cases h1 : p.length > XENSTORE_ABS_PATH_MAX
    · simp [h1, hne]
    · by_cases h2 : is_root_path p = true
      · exfalso
        have hq := (is_root_path_iff p).mp h2
        rw [hq] at hpref
        simp [tokenize, tok_go, bytePref] at hpref
      · have h2' : is_root_path p = false := by
          cases hq : is_root_path p
          · rfl
          · exact absurd hq h2
        cases hr : remove_toks (tokenize p) cs with
        | none => simp [h1, h2', hr, hne]
        | some cs2 =>
          simp only [h1, h2', hr, h0]
          simp only [if_false, Bool.false_eq_true]
          simp [h0]
          exact lookup_remove_isSome (tokenize p) cs cs2 S hr hpref

def c10w_path : List (List Char) := ["local".toList, "domain".toList, "3".toList, "x".toList]

def c10w_store : List XsTree :=
  [XsTree.node "local".toList none [XsTree.node "domain".toList none
    [XsTree.node "3".toList none [XsTree.node "x".toList (some "v".toList) []]]]]

/-- C10: witness — `C10_amended_thm` applied to the home-relative payload
`cfg` from domain 3 over a store holding `/local/domain/3/x`: the handler
behaves identically for any domid, and the home-subtree node still
resolves afterwards. -/
theorem C10_witness :
    handle_rm c10w_store 3 "cfg".toList = handle_rm c10w_store 0 "cfg".toList ∧
    (key_to_entry_toks c10w_path (handle_rm c10w_store 3 "cfg".toList).2).isSome =
      (key_to_entry_toks c10w_path c10w_store).isSome := by
  have h := C10_amended_thm c10w_store 3 0 "cfg".toList c10w_path
  exact ⟨h.1, h.2 (by decide)⟩
